import Mathlib

/-!
Verification of the wahapedia scraper core against its specification.

The Python sources are shallowly embedded: pure helpers become Lean
functions on `List Char` / `String`, the Redis client becomes explicit
state passing over an in-memory key/value model, and the extractors
become functions over a small DOM datatype.  Machine-level details that
the claims do not touch (wall-clock time, the HTML parser, the network)
are passed in as explicit parameters.
-/

namespace Spec2Proof

/-! ## WahapediaURLConfig (services/web-scraper/src/services/wahapedia/url_config.py)

Strings are modelled at the `List Char` level with ASCII casing
(`Char.isUpper` / `Char.isLower` / `Char.toLower`), matching Python's
behaviour on the ASCII alphabet the configuration works with.
-/

/-- Python's `str.lower` on the ASCII range (the only range the faction
tables use): map code points 65-90 to 97-122. -/
def pyLower (c : Char) : Char :=
  if 65 ≤ c.toNat ∧ c.toNat ≤ 90 then Char.ofNat (c.toNat + 32) else c

/-- The U+2019 right single quotation mark that
`normalized.replace("’", "-")` handles ("smart quote"). -/
def smartQuote : Char := '’'

/-- The chained `str.replace` calls: `"'" -> "-"`, `"’" -> "-"`,
`" " -> "-"`, applied character by character (each pattern is a single
character, so the three sequential replaces are one character map). -/
def replSpecial (c : Char) : Char :=
  if c = '\'' ∨ c = smartQuote ∨ c = ' ' then '-' else c

/-- Character class of `re.sub(r'[^a-z0-9\-]', '', ...)`: the characters
that survive the substitution (`a`-`z`, `0`-`9`, `-`). -/
def isAllowed (c : Char) : Bool :=
  decide ((97 ≤ c.toNat ∧ c.toNat ≤ 122) ∨ (48 ≤ c.toNat ∧ c.toNat ≤ 57) ∨ c = '-')

/-- An ASCII uppercase letter. -/
def isUpperA (c : Char) : Bool := decide (65 ≤ c.toNat ∧ c.toNat ≤ 90)

/-- An ASCII cased character (uppercase or lowercase letter). -/
def isCasedA (c : Char) : Bool :=
  decide ((65 ≤ c.toNat ∧ c.toNat ≤ 90) ∨ (97 ≤ c.toNat ∧ c.toNat ≤ 122))

/-- `re.sub(r'-+', '-', ...)`: collapse every run of hyphens to one. -/
def collapseHyphens : List Char → List Char
  | [] => []
  | [c] => [c]
  | c :: d :: rest =>
    if c = '-' ∧ d = '-' then collapseHyphens (d :: rest)
    else c :: collapseHyphens (d :: rest)

/-- Python's `str.strip(c)`: drop leading and trailing occurrences. -/
def stripChar (c : Char) (s : List Char) : List Char :=
  ((s.dropWhile (· = c)).reverse.dropWhile (· = c)).reverse

/-- The generic fallback transform of `normalize_faction_code`
(lines 308-319 of url_config.py): lowercase, map apostrophes / smart
quotes / spaces to hyphens, delete the other non-`[a-z0-9-]` characters,
collapse hyphen runs, strip edge hyphens. -/
def genericTransform (s : List Char) : List Char :=
  stripChar '-' (collapseHyphens (((s.map pyLower).map replSpecial).filter isAllowed))

/-- Python's `str.islower` over the ASCII-cased model: at least one cased
character and no uppercase character. -/
def pyIsLower (s : List Char) : Bool :=
  s.any isCasedA && s.all (fun c => !(isUpperA c))

/-- `FACTION_CODE_MAPPINGS`: the explicit lookup table of known
irregular faction names. -/
def FACTION_CODE_MAPPINGS : List (String × String) :=
  [("T'au Empire", "t-au-empire"),
   ("Emperor's Children", "emperor-s-children"),
   ("Adepta Sororitas", "adepta-sororitas"),
   ("Adeptus Custodes", "adeptus-custodes"),
   ("Adeptus Mechanicus", "adeptus-mechanicus"),
   ("Adeptus Titanicus", "adeptus-titanicus"),
   ("Astra Militarum", "astra-militarum"),
   ("Chaos Daemons", "chaos-daemons"),
   ("Chaos Knights", "chaos-knights"),
   ("Chaos Space Marines", "chaos-space-marines"),
   ("Death Guard", "death-guard"),
   ("Grey Knights", "grey-knights"),
   ("Imperial Agents", "imperial-agents"),
   ("Imperial Knights", "imperial-knights"),
   ("Space Marines", "space-marines"),
   ("Thousand Sons", "thousand-sons"),
   ("World Eaters", "world-eaters"),
   ("Aeldari", "aeldari"),
   ("Drukhari", "drukhari"),
   ("Genestealer Cults", "genestealer-cults"),
   ("Leagues of Votann", "leagues-of-votann"),
   ("Necrons", "necrons"),
   ("Orks", "orks"),
   ("Tyranids", "tyranids"),
   ("Unaligned Forces", "unaligned-forces")]

/-- The mapping table at the `List Char` level. -/
def factionMappings : List (List Char × List Char) :=
  FACTION_CODE_MAPPINGS.map (fun p => (p.1.toList, p.2.toList))

/-- First-match association lookup (the `if faction_input in
FACTION_CODE_MAPPINGS` dictionary access). -/
def lookupAssoc {α : Type} [DecidableEq α] {β : Type} (k : α) :
    List (α × β) → Option β
  | [] => none
  | p :: rest => if k = p.1 then some p.2 else lookupAssoc k rest

/-- `WahapediaURLConfig.normalize_faction_code` on `List Char`:
(1) explicit table lookup, (2) the "already normalized" early return
(`faction_input.islower() and '-' in faction_input`), (3) the generic
transform. -/
def normCode (s : List Char) : List Char :=
  match lookupAssoc s factionMappings with
  | some code => code
  | none =>
    if pyIsLower s ∧ s.contains '-' then s
    else genericTransform s

/-- `WahapediaURLConfig.normalize_faction_code` on `String`. -/
def normalize_faction_code (s : String) : String :=
  ⟨normCode s.toList⟩

/-- `VERSION_URL_MAPPING`: the closed version table. -/
def VERSION_URL_MAPPING : List (String × String) :=
  [("10th", "wh40k10ed"), ("9th", "wh40k9ed"), ("8th", "wh40k8ed")]

/-- `WahapediaURLConfig.BASE_URL`. -/
def BASE_URL : String := "https://wahapedia.ru"

/-- The state `__init__` builds: `self.url_path =
self.VERSION_URL_MAPPING.get(version_id, "wh40k10ed")`. -/
structure WahapediaURLConfig where
  version_id : String
  url_path : String
deriving DecidableEq, Repr

/-- `WahapediaURLConfig.__init__`. -/
def WahapediaURLConfig.init (version_id : String) : WahapediaURLConfig :=
  ⟨version_id, (lookupAssoc version_id VERSION_URL_MAPPING).getD "wh40k10ed"⟩

/-- Python's `str.replace(pat, repl)` (left-to-right, non-overlapping),
for a non-empty pattern; the `Nat` argument is recursion fuel, always
called with the length of the scanned list (every step consumes at least
one character, so the fuel never runs out). -/
def replaceAllGo (pat repl : List Char) : Nat → List Char → List Char
  | 0, s => s
  | _ + 1, [] => []
  | fuel + 1, c :: rest =>
    if pat.isPrefixOf (c :: rest) ∧ 0 < pat.length then
      repl ++ replaceAllGo pat repl fuel ((c :: rest).drop pat.length)
    else
      c :: replaceAllGo pat repl fuel rest

/-- Python's `str.replace(pat, repl)` for a non-empty pattern. -/
def replaceAll (pat repl s : List Char) : List Char :=
  replaceAllGo pat repl s.length s

/-- `build_url('factions_index')`: the pattern
`'/{version}/factions/'` with `{version}` substituted by `url_path`,
prefixed by `BASE_URL` (no other placeholder, so the
missing-parameter check never fires for this pattern). -/
def build_url_factions_index (cfg : WahapediaURLConfig) : String :=
  BASE_URL ++ ⟨replaceAll "{version}".toList cfg.url_path.toList "/{version}/factions/".toList⟩

/-! ### Lemmas about the normalization transform -/

/-- No two adjacent hyphens: the shape `re.sub(r'-+', '-', ...)` leaves
behind. -/
def noHyphenPair (a b : Char) : Prop := ¬(a = '-' ∧ b = '-')

lemma collapseHyphens_head? (c : Char) (l : List Char) :
    (collapseHyphens (c :: l)).head? = some c := by
  induction l generalizing c with
  | nil => rfl
  | cons d rest ih =>
    by_cases h : c = '-' ∧ d = '-'
    · rw [collapseHyphens, if_pos h, ih d, h.1, h.2]
    · rw [collapseHyphens, if_neg h]
      rfl

lemma collapseHyphens_chain' (l : List Char) :
    List.Chain' noHyphenPair (collapseHyphens l) := by
  induction l with
  | nil => exact List.chain'_nil
  | cons c rest ih =>
    cases rest with
    | nil => exact List.chain'_singleton c
    | cons d rest2 =>
      by_cases h : c = '-' ∧ d = '-'
      · rw [collapseHyphens, if_pos h]
        exact ih
      · rw [collapseHyphens, if_neg h]
        refine List.chain'_cons'.mpr ⟨?_, ih⟩
        intro y hy
        rw [collapseHyphens_head? d rest2] at hy
        cases hy
        exact h

lemma collapseHyphens_eq_self {l : List Char}
    (h : List.Chain' noHyphenPair l) : collapseHyphens l = l := by
  induction l with
  | nil => rfl
  | cons c rest ih =>
    cases rest with
    | nil => rfl
    | cons d rest2 =>
      have h2 := List.chain'_cons.mp h
      rw [collapseHyphens, if_neg h2.1, ih h2.2]

lemma collapseHyphens_sublist (l : List Char) :
    (collapseHyphens l).Sublist l := by
  induction l with
  | nil => exact List.Sublist.refl []
  | cons c rest ih =>
    cases rest with
    | nil => exact List.Sublist.refl [c]
    | cons d rest2 =>
      by_cases h : c = '-' ∧ d = '-'
      · rw [collapseHyphens, if_pos h]
        exact ih.cons c
      · rw [collapseHyphens, if_neg h]
        exact ih.cons₂ c

lemma stripChar_within (c : Char) (s : List Char) :
    (stripChar c s) <:+: s := by
  unfold stripChar
  have h1 : (s.dropWhile (· = c)) <:+ s := List.dropWhile_suffix _
  have h2 : ((s.dropWhile (· = c)).reverse.dropWhile (· = c)) <:+
      (s.dropWhile (· = c)).reverse := List.dropWhile_suffix _
  obtain ⟨pre, hpre⟩ := h2
  have h3 : ((s.dropWhile (· = c)).reverse.dropWhile (· = c)).reverse <+:
      (s.dropWhile (· = c)) :=
    ⟨pre.reverse, by rw [← List.reverse_append, hpre, List.reverse_reverse]⟩
  exact h3.isInfix.trans h1.isInfix

lemma head?_dropWhile_not {p : Char → Bool} {a : Char} :
    ∀ {l : List Char}, (l.dropWhile p).head? = some a → p a = false
  | [], h => by simp at h
  | c :: rest, h => by
    by_cases hc : p c
    · rw [List.dropWhile_cons, if_pos hc] at h
      exact head?_dropWhile_not h
    · rw [List.dropWhile_cons, if_neg hc] at h
      cases h
      exact Bool.of_not_eq_true hc

lemma dropWhile_eq_self_of_head {p : Char → Bool} {l : List Char}
    (h : ∀ a, l.head? = some a → p a = false) : l.dropWhile p = l := by
  cases l with
  | nil => rfl
  | cons c rest =>
    rw [List.dropWhile_cons, if_neg]
    simp [h c rfl]

lemma stripChar_head?_ne (c : Char) (s : List Char) :
    (stripChar c s).head? ≠ some c ∧ (stripChar c s).getLast? ≠ some c := by
  unfold stripChar
  constructor
  · rw [List.head?_reverse]
    intro h
    have hune : ((s.dropWhile (· = c)).reverse.dropWhile (· = c)) ≠ [] := by
      intro hnil
      rw [hnil] at h
      simp at h
    obtain ⟨pre, hpre⟩ :=
      List.dropWhile_suffix (l := (s.dropWhile (· = c)).reverse) (· = c)
    have heq := List.getLast?_append_of_ne_nil pre hune
    rw [hpre, List.getLast?_reverse] at heq
    rw [← heq] at h
    have := head?_dropWhile_not h
    simp at this
  · rw [List.getLast?_reverse]
    intro h
    have := head?_dropWhile_not h
    simp at this

lemma stripChar_eq_self {c : Char} {l : List Char}
    (h1 : l.head? ≠ some c) (h2 : l.getLast? ≠ some c) : stripChar c l = l := by
  unfold stripChar
  have e1 : l.dropWhile (· = c) = l := by
    apply dropWhile_eq_self_of_head
    intro a ha
    simp only [decide_eq_false_iff_not]
    intro hac
    exact h1 (hac ▸ ha)
  rw [e1]
  have e2 : l.reverse.dropWhile (· = c) = l.reverse := by
    apply dropWhile_eq_self_of_head
    intro a ha
    rw [List.head?_reverse] at ha
    simp only [decide_eq_false_iff_not]
    intro hac
    exact h2 (hac ▸ ha)
  rw [e2, List.reverse_reverse]

lemma pyLower_of_allowed {c : Char} (h : isAllowed c = true) : pyLower c = c := by
  unfold pyLower
  rw [if_neg]
  simp only [isAllowed, decide_eq_true_eq] at h
  intro hu
  rcases h with h | h | h
  · omega
  · omega
  · subst h
    exact absurd hu (by decide)

lemma replSpecial_of_allowed {c : Char} (h : isAllowed c = true) : replSpecial c = c := by
  unfold replSpecial
  rw [if_neg]
  intro hc
  rcases hc with hc | hc | hc <;> subst hc <;> exact absurd h (by decide)

lemma map_eq_self_of {f : Char → Char} :
    ∀ {l : List Char}, (∀ c ∈ l, f c = c) → l.map f = l
  | [], _ => rfl
  | c :: rest, h => by
    rw [List.map_cons, h c (.head _), map_eq_self_of (fun x hx => h x (.tail _ hx))]

/-- A list that already has the shape the generic transform produces is a
fixed point of the generic transform. -/
lemma genericTransform_fixpoint {l : List Char}
    (hall : ∀ c ∈ l, isAllowed c = true)
    (hch : List.Chain' noHyphenPair l)
    (hh : l.head? ≠ some '-') (hl : l.getLast? ≠ some '-') :
    genericTransform l = l := by
  unfold genericTransform
  rw [map_eq_self_of (fun c hc => pyLower_of_allowed (hall c hc)),
      map_eq_self_of (fun c hc => replSpecial_of_allowed (hall c hc)),
      List.filter_eq_self.mpr hall,
      collapseHyphens_eq_self hch,
      stripChar_eq_self hh hl]

/-- Every output of the generic transform has that shape: only
`[a-z0-9-]` characters, no adjacent hyphens, no edge hyphens. -/
lemma genericTransform_props (s : List Char) :
    (∀ c ∈ genericTransform s, isAllowed c = true) ∧
    List.Chain' noHyphenPair (genericTransform s) ∧
    (genericTransform s).head? ≠ some '-' ∧
    (genericTransform s).getLast? ≠ some '-' := by
  refine ⟨?_, ?_, (stripChar_head?_ne '-' _).1, (stripChar_head?_ne '-' _).2⟩
  · intro c hc
    unfold genericTransform at hc
    have h1 := ((stripChar_within '-' _).sublist.subset) hc
    have h2 := (collapseHyphens_sublist _).subset h1
    exact List.of_mem_filter h2
  · unfold genericTransform
    exact List.Chain'.infix (collapseHyphens_chain' _) (stripChar_within '-' _)

lemma lookupAssoc_mem {α β : Type} [DecidableEq α] {k : α} {v : β} :
    ∀ {m : List (α × β)}, lookupAssoc k m = some v → (k, v) ∈ m
  | [], h => by simp [lookupAssoc] at h
  | p :: rest, h => by
    rw [lookupAssoc] at h
    by_cases hk : k = p.1
    · rw [if_pos hk] at h
      injection h with hv
      subst hk
      subst hv
      rw [Prod.mk.eta]
      exact .head _
    · rw [if_neg hk] at h
      exact .tail _ (lookupAssoc_mem h)

lemma lookupAssoc_eq_none {α β : Type} [DecidableEq α] {k : α} :
    ∀ {m : List (α × β)}, (∀ p ∈ m, k ≠ p.1) → lookupAssoc k m = none
  | [], _ => rfl
  | p :: rest, h => by
    rw [lookupAssoc, if_neg (h p (.head _)),
      lookupAssoc_eq_none (fun q hq => h q (.tail _ hq))]

lemma normCode_eq_of_some {l v : List Char}
    (h : lookupAssoc l factionMappings = some v) : normCode l = v := by
  unfold normCode
  rw [h]

lemma normCode_eq_of_none {l : List Char}
    (h : lookupAssoc l factionMappings = none) :
    normCode l = if pyIsLower l ∧ l.contains '-' then l else genericTransform l := by
  unfold normCode
  rw [h]

/-- Every value of the irregular-case table is a fixed point of
`normalize_faction_code`. -/
lemma mapping_values_fixed : ∀ p ∈ factionMappings, normCode p.2 = p.2 := by decide

/-- Every key of the irregular-case table contains a character outside
`[a-z0-9-]` (an uppercase letter, a space or an apostrophe). -/
lemma mapping_keys_have_disallowed :
    ∀ p ∈ factionMappings, ∃ c ∈ p.1, isAllowed c = false := by decide

/-- Outputs of the generic transform are fixed points of `normCode`. -/
lemma normCode_fixpoint_of_generic (s : List Char) :
    normCode (genericTransform s) = genericTransform s := by
  obtain ⟨hall, hch, hh, hl⟩ := genericTransform_props s
  have hnone : lookupAssoc (genericTransform s) factionMappings = none := by
    apply lookupAssoc_eq_none
    intro p hp hk
    obtain ⟨c, hc, hbad⟩ := mapping_keys_have_disallowed p hp
    rw [← hk] at hc
    rw [hall c hc] at hbad
    cases hbad
  by_cases hcond : pyIsLower (genericTransform s) ∧ (genericTransform s).contains '-'
  · rw [normCode_eq_of_none hnone, if_pos hcond]
  · rw [normCode_eq_of_none hnone, if_neg hcond]
    exact genericTransform_fixpoint hall hch hh hl

lemma normCode_idem (l : List Char) : normCode (normCode l) = normCode l := by
  cases h : lookupAssoc l factionMappings with
  | some v =>
    rw [normCode_eq_of_some h]
    exact mapping_values_fixed (l, v) (lookupAssoc_mem h)
  | none =>
    by_cases hc : pyIsLower l ∧ l.contains '-'
    · have he : normCode l = l := by rw [normCode_eq_of_none h, if_pos hc]
      rw [he, he]
    · have he : normCode l = genericTransform l := by
        rw [normCode_eq_of_none h, if_neg hc]
      rw [he]
      exact normCode_fixpoint_of_generic l

/-- Claim C5: `normalize_faction_code` is idempotent — normalizing an
already-normalized faction name (irregular-table hit, heuristic early
return, or generic transform output) returns it unchanged. -/
theorem C5_normalize_faction_code_idempotent (s : String) :
    normalize_faction_code (normalize_faction_code s) = normalize_faction_code s := by
  show (⟨normCode (normCode s.toList)⟩ : String) = ⟨normCode s.toList⟩
  rw [normCode_idem]

/-- Claim C6 counterexample: the input `"t'au-empire"` is not a key of the
irregular-case table, yet `normalize_faction_code` does not apply the
generic transform to it — the "already normalized" heuristic
(`faction_input.islower() and '-' in faction_input`) returns it
unchanged, and the result still contains an apostrophe, so it is not a
URL-safe code of lowercase letters, digits and hyphens. -/
theorem C6_counterexample :
    lookupAssoc "t'au-empire".toList factionMappings = none ∧
    normalize_faction_code "t'au-empire" = "t'au-empire" ∧
    ¬ (genericTransform "t'au-empire".toList = "t'au-empire".toList) ∧
    ("t'au-empire".toList.all isAllowed) = false := by decide

/-- Claim C6 (amended): for every input that is neither a key of the
irregular-case table nor accepted by the "already normalized" heuristic
(all cased characters lowercase and at least one hyphen),
`normalize_faction_code` applies the generic transform, and that output
contains only `[a-z0-9]` characters and single, non-edge hyphens. -/
theorem C6_generic_output_url_safe (s : String)
    (hk : lookupAssoc s.toList factionMappings = none)
    (hc : ¬ (pyIsLower s.toList ∧ s.toList.contains '-')) :
    normalize_faction_code s = ⟨genericTransform s.toList⟩ ∧
    (∀ c ∈ (normalize_faction_code s).toList, isAllowed c = true) ∧
    List.Chain' noHyphenPair (normalize_faction_code s).toList ∧
    (normalize_faction_code s).toList.head? ≠ some '-' ∧
    (normalize_faction_code s).toList.getLast? ≠ some '-' := by
  have he : normalize_faction_code s = ⟨genericTransform s.toList⟩ := by
    show (⟨normCode s.toList⟩ : String) = _
    rw [normCode_eq_of_none hk, if_neg hc]
  obtain ⟨h1, h2, h3, h4⟩ := genericTransform_props s.toList
  rw [he]
  exact ⟨rfl, h1, h2, h3, h4⟩

/-- Witness for C6 (amended) at the concrete input `"Flesh Tearers!"`. -/
theorem C6_generic_output_url_safe_witness :
    lookupAssoc "Flesh Tearers!".toList factionMappings = none ∧
    ¬ (pyIsLower "Flesh Tearers!".toList ∧ "Flesh Tearers!".toList.contains '-') ∧
    normalize_faction_code "Flesh Tearers!" = "flesh-tearers" :=
  ⟨by decide, by decide, by
    have h := C6_generic_output_url_safe "Flesh Tearers!" (by decide) (by decide)
    rw [h.1]
    decide⟩

/-- Claim C9: an unknown version identifier resolves to the default path
segment `"wh40k10ed"`, and URLs built by the resolver for that identifier
use the default version path. -/
theorem C9_unknown_version_falls_back (v : String)
    (h10 : v ≠ "10th") (h9 : v ≠ "9th") (h8 : v ≠ "8th") :
    (WahapediaURLConfig.init v).url_path = "wh40k10ed" ∧
    build_url_factions_index (WahapediaURLConfig.init v) =
      "https://wahapedia.ru/wh40k10ed/factions/" := by
  have hup : (WahapediaURLConfig.init v).url_path = "wh40k10ed" := by
    simp [WahapediaURLConfig.init, VERSION_URL_MAPPING, lookupAssoc, h10, h9, h8]
  refine ⟨hup, ?_⟩
  unfold build_url_factions_index
  rw [hup]
  decide

/-- Witness for C9 at the concrete unknown version `"11th"`. -/
theorem C9_unknown_version_falls_back_witness :
    (WahapediaURLConfig.init "11th").url_path = "wh40k10ed" ∧
    build_url_factions_index (WahapediaURLConfig.init "11th") =
      "https://wahapedia.ru/wh40k10ed/factions/" :=
  C9_unknown_version_falls_back "11th" (by decide) (by decide) (by decide)

/-! ## RedisManager (services/wahapedia-scraper/src/redis_client.py)

The broker is modelled as an in-memory key → list store; message
dictionaries are association lists over an abstract value type `V`
(serialization is the identity on stored values, matching
`json.loads(json.dumps(d)) == d` for the JSON-representable dictionaries
the scraper publishes).  The failure points the code distinguishes — an
uninitialized client, `json.dumps`, `client.publish`, and the tracking
block of `_track_message` — are passed in as booleans; an exception that
escapes a model function is an `Except.error`.
-/

/-- Python dict assignment `d[k] = v`: replace in place, else append. -/
def setAssoc {α : Type} [DecidableEq α] {β : Type} (k : α) (v : β) :
    List (α × β) → List (α × β)
  | [] => [(k, v)]
  | p :: rest => if p.1 = k then (k, v) :: rest else p :: setAssoc k v rest

/-- A Python dict (a message envelope) with values in `V`. -/
def MsgDict (V : Type) : Type := List (String × V)

/-- Redis `LPUSH`: prepend, newest first. -/
def lpush {α : Type} (m : α) (l : List α) : List α := m :: l

/-- Redis `LTRIM key start stop` for non-negative indices: keep the
elements at positions `start..stop`. -/
def ltrim {α : Type} (start stop : Nat) (l : List α) : List α :=
  (l.drop start).take (stop + 1 - start)

/-- Redis `LRANGE key start stop`: negative indices count from the end,
bounds are clamped, and an empty range yields `[]`. -/
def lrange {α : Type} (l : List α) (start stop : Int) : List α :=
  let n : Int := l.length
  let s := max (if start < 0 then n + start else start) 0
  let e := min (if stop < 0 then n + stop else stop) (n - 1)
  if s ≤ e then (l.drop s.toNat).take (e - s + 1).toNat else []

/-- The Redis server state seen by the manager: the per-key lists the
tracking writes to. -/
structure RedisState (V : Type) where
  lists : List (String × List (MsgDict V))

/-- Reading a key of the store (an absent key is an empty list). -/
def getList {V : Type} (st : RedisState V) (key : String) : List (MsgDict V) :=
  (lookupAssoc key st.lists).getD []

/-- Writing a key of the store. -/
def setList {V : Type} (st : RedisState V) (key : String) (l : List (MsgDict V)) :
    RedisState V :=
  ⟨setAssoc key l st.lists⟩

/-- `f"messages:{channel}:recent"`. -/
def recentKey (channel : String) : String := "messages:" ++ channel ++ ":recent"

/-- The buffer update `_track_message` performs on one channel's list:
`lpush` the envelope, then `ltrim key 0 99`. -/
def trackUpdate {α : Type} (buf : List α) (m : α) : List α :=
  ltrim 0 99 (lpush m buf)

/-- `RedisManager._track_message`: apply `trackUpdate` to the channel's
recent list (the `expire` call sets a TTL the claims do not model).  Its
`try/except` swallows any failure of the block, leaving the store
unchanged and returning normally. -/
def track_message {V : Type} (trackOk : Bool) (st : RedisState V)
    (channel : String) (message : MsgDict V) : RedisState V :=
  if trackOk then
    setList st (recentKey channel) (trackUpdate (getList st (recentKey channel)) message)
  else st

/-- The body of `RedisManager.publish_message` up to its `except` clause:
raise if the client is uninitialized, inject `timestamp` and `source`,
serialize, publish, track, return `True`. -/
def publish_message_attempt {V : Type} (clientInitialized serializeOk transportOk trackOk : Bool)
    (st : RedisState V) (channel : String) (message : MsgDict V)
    (now : String) (strVal : String → V) :
    Except String (Bool × RedisState V) :=
  if !clientInitialized then .error "Redis not initialized"
  else
    let message1 := setAssoc "timestamp" (strVal now) message
    let message2 := setAssoc "source" (strVal "wahapedia-scraper") message1
    if !serializeOk then .error "serialization failed"
    else if !transportOk then .error "transport failed"
    else .ok (true, track_message trackOk st channel message2)

/-- `RedisManager.publish_message`: the `except Exception` clause turns
any raised exception into a logged `return False`. -/
def publish_message {V : Type} (clientInitialized serializeOk transportOk trackOk : Bool)
    (st : RedisState V) (channel : String) (message : MsgDict V)
    (now : String) (strVal : String → V) :
    Except String Bool × RedisState V :=
  match publish_message_attempt clientInitialized serializeOk transportOk trackOk
      st channel message now strVal with
  | .ok (b, st2) => (.ok b, st2)
  | .error _ => (.ok false, st)

/-- `RedisManager.get_recent_messages`: `lrange key 0 (limit - 1)`,
deserializing each stored envelope (the identity here). -/
def get_recent_messages {V : Type} (st : RedisState V) (channel : String)
    (limit : Int) : List (MsgDict V) :=
  lrange (getList st (recentKey channel)) 0 (limit - 1)

/-- The subscriber-side state of `RedisManager`: the handler table, the
channels subscribed on the live `pubsub` connection, and whether the
dispatch thread is alive. -/
structure SubscriberState (H : Type) where
  message_handlers : List (String × List H)
  pubsub_channels : List String
  thread_alive : Bool

/-- `RedisManager._start_subscriber`: a fresh pubsub connection
subscribes exactly the channels currently in the handler table, and the
listener thread is started. -/
def start_subscriber {H : Type} (st : SubscriberState H) : SubscriberState H :=
  { st with pubsub_channels := st.message_handlers.map Prod.fst, thread_alive := true }

/-- `RedisManager.subscribe`: append the handler to the channel's list
(creating the entry), then start the subscriber thread only if it is not
already alive. -/
def subscribe {H : Type} (st : SubscriberState H) (channel : String) (handler : H) :
    SubscriberState H :=
  let hs := (lookupAssoc channel st.message_handlers).getD []
  let st1 : SubscriberState H :=
    { st with message_handlers := setAssoc channel (hs ++ [handler]) st.message_handlers }
  if !st.thread_alive then start_subscriber st1 else st1

/-- The handlers `_listen_for_messages` invokes for a message published
on `channel`: `pubsub.listen()` only yields messages for channels
subscribed on the pubsub connection, and the loop then looks the channel
up in the handler table. -/
def handlers_invoked {H : Type} (st : SubscriberState H) (channel : String) : List H :=
  if channel ∈ st.pubsub_channels then
    (lookupAssoc channel st.message_handlers).getD []
  else []

/-! ### Lemmas about the message-bus model -/

lemma lookupAssoc_setAssoc_same {α : Type} [DecidableEq α] {β : Type} (k : α) (v : β) :
    ∀ (m : List (α × β)), lookupAssoc k (setAssoc k v m) = some v
  | [] => by simp [setAssoc, lookupAssoc]
  | p :: rest => by
    by_cases hp : p.1 = k
    · rw [setAssoc, if_pos hp, lookupAssoc, if_pos rfl]
    · rw [setAssoc, if_neg hp, lookupAssoc, if_neg (fun h => hp h.symm),
        lookupAssoc_setAssoc_same k v rest]

lemma lookupAssoc_setAssoc_ne {α : Type} [DecidableEq α] {β : Type} {k k2 : α}
    (v : β) (hne : k ≠ k2) :
    ∀ (m : List (α × β)), lookupAssoc k (setAssoc k2 v m) = lookupAssoc k m
  | [] => by simp [setAssoc, lookupAssoc, hne]
  | p :: rest => by
    by_cases hp : p.1 = k2
    · rw [setAssoc, if_pos hp, lookupAssoc, if_neg hne, lookupAssoc, if_neg]
      rw [hp]
      exact hne
    · rw [setAssoc, if_neg hp, lookupAssoc, lookupAssoc,
        lookupAssoc_setAssoc_ne v hne rest]

/-- `trackUpdate` is "prepend, keep the first 100". -/
lemma trackUpdate_eq_take {α : Type} (buf : List α) (m : α) :
    trackUpdate buf m = (m :: buf).take 100 := by
  simp [trackUpdate, ltrim, lpush]

lemma foldl_trackUpdate {α : Type} :
    ∀ (l : List α) (buf : List α), buf.length ≤ 100 →
      l.foldl trackUpdate buf = (l.reverse ++ buf).take 100
  | [], buf, h => by
    simp [List.take_of_length_le h]
  | m :: l, buf, h => by
    rw [List.foldl_cons,
      foldl_trackUpdate l (trackUpdate buf m)
        (by rw [trackUpdate_eq_take]; exact List.length_take_le 100 _),
      trackUpdate_eq_take, List.reverse_cons, List.append_assoc,
      List.singleton_append, List.take_append_eq_append_take,
      List.take_append_eq_append_take, List.take_take]
    have hmin : (100 - l.reverse.length) ⊓ 100 = 100 - l.reverse.length := by omega
    rw [hmin]

/-- `lrange l 0 0` of a non-empty list is its first element. -/
lemma lrange_cons_zero_zero {α : Type} (m : α) (t : List α) :
    lrange (m :: t) 0 0 = [m] := by
  simp only [lrange, List.length_cons]
  norm_num

/-- Claim C2: `publish_message` always returns a boolean — the
`except Exception` clause means no exception escapes — and it returns
`False` whenever the client is uninitialized, serialization fails, or the
transport publish fails. -/
theorem C2_publish_message_never_raises {V : Type}
    (clientInitialized serializeOk transportOk trackOk : Bool)
    (st : RedisState V) (channel : String) (message : MsgDict V)
    (now : String) (strVal : String → V) :
    (∃ b : Bool, (publish_message clientInitialized serializeOk transportOk trackOk
        st channel message now strVal).1 = .ok b) ∧
    (clientInitialized = false ∨ serializeOk = false ∨ transportOk = false →
      (publish_message clientInitialized serializeOk transportOk trackOk
        st channel message now strVal).1 = .ok false) := by
  cases clientInitialized <;> cases serializeOk <;> cases transportOk <;>
    simp [publish_message, publish_message_attempt]

/-- Witness for C2: a concrete publish against an uninitialized client
returns `False` without raising. -/
theorem C2_publish_message_never_raises_witness :
    (publish_message (V := String) false true true true ⟨[]⟩ "wahapedia:factions"
      [("type", "faction_list")] "2025-01-01T00:00:00" id).1 = .ok false :=
  (C2_publish_message_never_raises false true true true ⟨[]⟩ "wahapedia:factions"
    [("type", "faction_list")] "2025-01-01T00:00:00" id).2 (Or.inl rfl)

/-- Claim C3: the recent-message buffer update keeps at most 100
envelopes, evicts exactly the oldest envelope when full, and a sequence
of 150 publishes into an empty buffer leaves exactly the 100 most recent
(newest first). -/
theorem C3_recent_buffer_bounded (α : Type) :
    (∀ (buf : List α) (m : α), (trackUpdate buf m).length ≤ 100) ∧
    (∀ (buf : List α) (m : α), buf.length = 100 →
      trackUpdate buf m = m :: buf.dropLast) ∧
    (∀ msgs : List α, msgs.length = 150 →
      msgs.foldl trackUpdate [] = (msgs.drop 50).reverse ∧
      (msgs.foldl trackUpdate []).length = 100) := by
  refine ⟨?_, ?_, ?_⟩
  · intro buf m
    rw [trackUpdate_eq_take]
    exact List.length_take_le 100 _
  · intro buf m h
    rw [trackUpdate_eq_take, List.dropLast_eq_take, h]
    norm_num
  · intro msgs h
    have he : msgs.foldl trackUpdate [] = (msgs.drop 50).reverse := by
      rw [foldl_trackUpdate msgs [] (by simp), List.append_nil,
        List.reverse_drop, h]
    refine ⟨he, ?_⟩
    rw [he, List.length_reverse, List.length_drop, h]

/-- Witness for C3: a full buffer of 100 envelopes receiving one more,
and a 150-message publish sequence into an empty buffer. -/
theorem C3_recent_buffer_bounded_witness :
    (trackUpdate (List.replicate 100 (0 : Nat)) 7).length ≤ 100 ∧
    trackUpdate (List.replicate 100 (0 : Nat)) 7 =
      7 :: (List.replicate 100 (0 : Nat)).dropLast ∧
    (List.range 150).foldl trackUpdate [] = ((List.range 150).drop 50).reverse := by
  have h := C3_recent_buffer_bounded Nat
  exact ⟨h.1 (List.replicate 100 0) 7,
    h.2.1 (List.replicate 100 0) 7 (by simp),
    (h.2.2 (List.range 150) (by simp)).1⟩

lemma getList_setList {V : Type} (st : RedisState V) (key : String)
    (l : List (MsgDict V)) : getList (setList st key l) key = l := by
  unfold getList setList
  rw [lookupAssoc_setAssoc_same]
  rfl

/-- Claim C4 counterexample: with a transport publish that succeeds but a
recent-buffer tracking write that fails (`_track_message` swallows its
exception and `publish_message` then returns `True`), the envelope counts
as successfully published, yet `get_recent_messages(channel, 1)`
immediately afterwards does not return it. -/
theorem C4_counterexample :
    (publish_message (V := String) true true true false ⟨[]⟩ "wahapedia:factions"
      [("type", "faction_list")] "2025-01-01T00:00:00" id).1 = .ok true ∧
    get_recent_messages
      (publish_message (V := String) true true true false ⟨[]⟩ "wahapedia:factions"
        [("type", "faction_list")] "2025-01-01T00:00:00" id).2
      "wahapedia:factions" 1 = [] :=
  ⟨rfl, rfl⟩

/-- Claim C4 (amended): when the publish and the recent-buffer tracking
write both succeed, `publish_message` returns `True` and
`get_recent_messages(channel, 1)` immediately afterwards returns exactly
the published envelope, whose `timestamp` and `source` fields carry the
values injected at publish time. -/
theorem C4_publish_roundtrip_when_tracked {V : Type} (st : RedisState V)
    (channel : String) (message : MsgDict V) (now : String) (strVal : String → V) :
    (publish_message true true true true st channel message now strVal).1 = .ok true ∧
    get_recent_messages
        (publish_message true true true true st channel message now strVal).2
        channel 1 =
      [setAssoc "source" (strVal "wahapedia-scraper")
        (setAssoc "timestamp" (strVal now) message)] ∧
    lookupAssoc "timestamp"
        (setAssoc "source" (strVal "wahapedia-scraper")
          (setAssoc "timestamp" (strVal now) message)) = some (strVal now) ∧
    lookupAssoc "source"
        (setAssoc "source" (strVal "wahapedia-scraper")
          (setAssoc "timestamp" (strVal now) message)) =
      some (strVal "wahapedia-scraper") := by
  have hst : (publish_message true true true true st channel message now strVal).2 =
      setList st (recentKey channel)
        (trackUpdate (getList st (recentKey channel))
          (setAssoc "source" (strVal "wahapedia-scraper")
            (setAssoc "timestamp" (strVal now) message))) := by
    simp [publish_message, publish_message_attempt, track_message]
  refine ⟨?_, ?_, ?_, ?_⟩
  · simp [publish_message, publish_message_attempt]
  · rw [hst, get_recent_messages, getList_setList, trackUpdate_eq_take]
    norm_num
    exact lrange_cons_zero_zero _ _
  · rw [lookupAssoc_setAssoc_ne _ (by decide), lookupAssoc_setAssoc_same]
  · rw [lookupAssoc_setAssoc_same]

/-- Claim C10: with the dispatch thread already alive, `subscribe` on a
channel with no registered handlers appends the handler to the table but
leaves the pubsub connection's channel set unchanged, so a message
published on the new channel is delivered to no handler. -/
theorem C10_subscribe_after_start_never_delivers {H : Type}
    (st : SubscriberState H) (channel : String) (handler : H)
    (halive : st.thread_alive = true)
    (hnew : lookupAssoc channel st.message_handlers = none)
    (hnotsub : channel ∉ st.pubsub_channels) :
    (subscribe st channel handler).pubsub_channels = st.pubsub_channels ∧
    lookupAssoc channel (subscribe st channel handler).message_handlers =
      some [handler] ∧
    handlers_invoked (subscribe st channel handler) channel = [] := by
  have hsub : subscribe st channel handler =
      { st with message_handlers :=
          setAssoc channel [handler] st.message_handlers } := by
    simp [subscribe, hnew, halive]
  rw [hsub]
  refine ⟨rfl, lookupAssoc_setAssoc_same _ _ _, ?_⟩
  unfold handlers_invoked
  rw [if_neg hnotsub]

/-- Witness for C10 at a concrete state whose dispatch thread is alive
and subscribed to one channel. -/
theorem C10_subscribe_after_start_never_delivers_witness :
    (subscribe (H := Nat) ⟨[("wahapedia:factions", [0])], ["wahapedia:factions"], true⟩
      "wahapedia:status" 1).pubsub_channels = ["wahapedia:factions"] ∧
    lookupAssoc "wahapedia:status"
      (subscribe (H := Nat) ⟨[("wahapedia:factions", [0])], ["wahapedia:factions"], true⟩
        "wahapedia:status" 1).message_handlers = some [1] ∧
    handlers_invoked
      (subscribe (H := Nat) ⟨[("wahapedia:factions", [0])], ["wahapedia:factions"], true⟩
        "wahapedia:status" 1) "wahapedia:status" = [] :=
  C10_subscribe_after_start_never_delivers _ "wahapedia:status" 1 rfl
    (by decide) (by decide)

/-! ## BaseScraper (services/wahapedia-scraper/src/scrapers/wahapedia/base_scraper.py)

Wall-clock readings (`time.time()`, the sampled `random.uniform`
delay) are passed in as integer parameters; the observable side effects
of a `fetch_page` call are recorded as an event trace in program order.
-/

/-- Observable events of a `fetch_page` call, in program order. -/
inductive FetchEv where
  | sleepEv (seconds : Int)
  | setLastRequestTime (t : Int)
  | httpRequest (url : String)
deriving DecidableEq, Repr

/-- The scraper instance state the rate limiter reads and writes. -/
structure ScraperState where
  last_request_time : Int
deriving DecidableEq, Repr

/-- `BaseScraper._rate_limit`: `now` is `time.time()` at entry, `delay`
the sampled `random.uniform(rate_limit_min, rate_limit_max)`, `now2` is
`time.time()` after the optional sleep.  The method ends by writing
`self.last_request_time = time.time()`. -/
def rate_limit (st : ScraperState) (now delay now2 : Int) :
    ScraperState × List FetchEv :=
  let time_since := now - st.last_request_time
  let evs :=
    if time_since < delay then [FetchEv.sleepEv (delay - time_since)] else []
  (⟨now2⟩, evs ++ [FetchEv.setLastRequestTime now2])

/-- Python's `str.startswith`. -/
def pyStartsWith (s pre : String) : Bool := pre.toList.isPrefixOf s.toList

/-- Relative URLs are resolved against `BASE_URL` (`fetch_page` lines
92-93). -/
def resolve_url (url : String) : String :=
  if pyStartsWith url "http" then url else BASE_URL ++ url

/-- `BaseScraper.fetch_page`: resolve the URL, apply `_rate_limit`, then
issue `session.get`; `response` is `some` page text on success or `none`
when the request (after the adapter's retries) raises a
`RequestException`, which the `except` clause maps to `None`. -/
def fetch_page (st : ScraperState) (url : String) (now delay now2 : Int)
    (response : Option String) :
    ScraperState × List FetchEv × Option String :=
  let url2 := resolve_url url
  let (st2, evs) := rate_limit st now delay now2
  (st2, evs ++ [FetchEv.httpRequest url2], response)

/-- Claim C7 counterexample: a concrete `fetch_page` call whose event
trace writes `last_request_time` (at the end of `_rate_limit`) strictly
before the HTTP request is issued, and never after it. -/
theorem C7_counterexample :
    (fetch_page ⟨0⟩ "/wh40k10ed/factions/" 100 2 100 (some "page")).2.1 =
      [FetchEv.setLastRequestTime 100,
       FetchEv.httpRequest "https://wahapedia.ru/wh40k10ed/factions/"] ∧
    (fetch_page ⟨0⟩ "/wh40k10ed/factions/" 100 2 100 (some "page")).2.1.head? =
      some (FetchEv.setLastRequestTime 100) := by
  constructor <;> decide

/-- Claim C7 (amended): `last_request_time` is written exactly once per
`fetch_page` call, inside `_rate_limit` — after any rate-limit sleep and
immediately before the HTTP request is issued, recording the request
start time — and it is not written again after the request completes,
whether the request succeeds or fails. -/
theorem C7_last_request_time_before_request (st : ScraperState)
    (url : String) (now delay now2 : Int) (response : Option String) :
    (fetch_page st url now delay now2 response).2.1 =
      (if now - st.last_request_time < delay
        then [FetchEv.sleepEv (delay - (now - st.last_request_time))] else []) ++
      [FetchEv.setLastRequestTime now2, FetchEv.httpRequest (resolve_url url)] ∧
    (fetch_page st url now delay now2 response).1.last_request_time = now2 := by
  unfold fetch_page rate_limit
  by_cases h : now - st.last_request_time < delay <;> simp [h]

/-! ## Extractors

The HTML fragments the extractors walk are modelled as a DOM in
first-child / next-sibling form; `findFirst` is BeautifulSoup's
document-order `find` over a node list, `findSibling` the
`find_next_siblings()` loops, which look only at direct siblings.
-/

/-- A parsed HTML fragment: `nil` ends a sibling list;
`node tag classes text child sib` is an element with its `class` list,
its stripped text (`get_text(strip=True)`), its first child and its
following siblings. -/
inductive Dom where
  | nil : Dom
  | node : String → List String → String → Dom → Dom → Dom
deriving DecidableEq, Repr

/-- The first child of an element (`nil` for the sibling-list end). -/
def Dom.childOf : Dom → Dom
  | .nil => .nil
  | .node _ _ _ child _ => child

/-- The stripped text of an element. -/
def Dom.textOf : Dom → String
  | .nil => ""
  | .node _ _ text _ _ => text

/-- BeautifulSoup `find`-style search in document order: test the node,
then its subtree, then its following siblings. -/
def findFirst (p : String → List String → String → Bool) : Dom → Option Dom
  | .nil => none
  | .node t cs x child sib =>
    if p t cs x then some (.node t cs x child sib)
    else
      match findFirst p child with
      | some r => some r
      | none => findFirst p sib

/-- The `for sibling in target.find_next_siblings()` loops: scan direct
siblings only, returning the first match. -/
def findSibling (p : String → List String → String → Bool) : Dom → Option Dom
  | .nil => none
  | .node t cs x child sib =>
    if p t cs x then some (.node t cs x child sib)
    else findSibling p sib

/-- `sibling.name == 'div' and 'Columns2' in sibling.get('class', [])`. -/
def isColumns2Div (t : String) (cs : List String) (_x : String) : Bool :=
  t == "div" && cs.contains "Columns2"

/-- A `div` carrying the `BreakInsideAvoid` class (both the
`find('div', {'class': 'BreakInsideAvoid'})` descendant search and the
fallback sibling test). -/
def isBreakInsideAvoidDiv (t : String) (cs : List String) (_x : String) : Bool :=
  t == "div" && cs.contains "BreakInsideAvoid"

/-- `find('h3')`. -/
def isH3 (t : String) (_cs : List String) (_x : String) : Bool := t == "h3"

/-- `find('h2')`. -/
def isH2 (t : String) (_cs : List String) (_x : String) : Bool := t == "h2"

/-! ### ArmyRulesExtractor (services/web-scraper/src/scrapers/wahapedia/extractors/army_rules.py) -/

/-- The faction dictionary handed to the army-rule stage
(`faction_data.get(...)`: an absent key is `none`). -/
structure FactionData where
  name : Option String
  url : Option String
  code : Option String
deriving DecidableEq, Repr

/-- The record `extract_army_rule_for_faction` builds on success. -/
structure ArmyRule where
  faction_name : Option String
  faction_code : Option String
  faction_url : String
  army_rule_name : String
deriving DecidableEq, Repr

/-- One fetched-and-parsed faction page, as far as the army-rule stage
reads it: `soup.find('a', {'name': 'Army-Rules'})` either fails (`none`)
or yields an anchor of which only the following-sibling chain is
consumed. -/
structure FactionPage where
  armyRulesSiblings : Option Dom
deriving DecidableEq, Repr

/-- Lines 91-116 of army_rules.py, shared by both branch outcomes: the
first `h3` (else `h2`) inside the chosen `break_div`; an empty extracted
name (`if army_rule_name:`) yields no record. -/
def rule_name_of_break_div (bd : Dom) : Option String :=
  match findFirst isH3 bd.childOf with
  | some h => if h.textOf = "" then none else some h.textOf
  | none =>
    match findFirst isH2 bd.childOf with
    | some h => if h.textOf = "" then none else some h.textOf
    | none => none

/-- Build the army-rule record from the chosen `break_div`, or no record
when the heading or its text is missing. -/
def armyRuleFromBreakDiv (fd : FactionData) (url : String) :
    Option Dom → Option ArmyRule
  | none => none
  | some bd =>
    match rule_name_of_break_div bd with
    | none => none
    | some nm => some ⟨fd.name, fd.code, url, nm⟩

/-- `ArmyRulesExtractor.extract_army_rule_for_faction`: missing/empty
URL, failed fetch, or missing `Army-Rules` anchor yield no record;
otherwise the primary pattern (first `Columns2` div sibling, then a
`BreakInsideAvoid` descendant inside it) is tried, the fallback (first
`BreakInsideAvoid` div sibling) only when no `Columns2` sibling exists,
and the heading is read from whichever `break_div` was chosen. -/
def extract_army_rule_for_faction (fetch : String → Option FactionPage)
    (fd : FactionData) : Option ArmyRule :=
  match fd.url with
  | none => none
  | some url =>
    if url = "" then none
    else
      match fetch url with
      | none => none
      | some page =>
        match page.armyRulesSiblings with
        | none => none
        | some sibs =>
          let breakDiv :=
            match findSibling isColumns2Div sibs with
            | some target => findFirst isBreakInsideAvoidDiv target.childOf
            | none => findSibling isBreakInsideAvoidDiv sibs
          armyRuleFromBreakDiv fd url breakDiv

/-- The status messages a stage publishes on its status channel. -/
inductive StatusKind where
  | started
  | completed
  | error
deriving DecidableEq, Repr

/-- `ArmyRulesExtractor.extract_all_army_rules` plus
`publish_army_rules`: the extracted records and the status messages
published in order.  `publishOk` is the outcome of the
`redis_manager.publish_message` call for the batch payload. -/
def extract_all_army_rules (fetch : String → Option FactionPage)
    (publish_to_redis publishOk : Bool) (factions : List FactionData) :
    List ArmyRule × List StatusKind :=
  let start := if publish_to_redis then [StatusKind.started] else []
  let rules := factions.filterMap (extract_army_rule_for_faction fetch)
  let finish :=
    if publish_to_redis && !rules.isEmpty then
      if publishOk then [StatusKind.completed] else [StatusKind.error]
    else []
  (rules, start ++ finish)

/-! ### FactionListExtractor (services/wahapedia-scraper/src/scrapers/wahapedia/extractors/faction_list.py) -/

/-- A link the `faction_link` CSS selector yields inside the dropdown:
its stripped text and its `href` attribute (`""` when the attribute is
absent, per `safe_extract_attribute`'s default). -/
structure FactionLink where
  text : String
  href : String
deriving DecidableEq, Repr

/-- A faction record `{name, url, code}` built by the stage. -/
structure Faction where
  name : String
  url : String
  code : String
deriving DecidableEq, Repr

/-- The quick-start page as far as the faction stage reads it:
`select_one(nav_button)` either fails (`none`) or yields the button,
whose following siblings each expose their `class` list and the links
the `faction_link` selector finds inside them. -/
structure QuickStartPage where
  nav_siblings : Option (List (List String × List FactionLink))
deriving DecidableEq, Repr

/-- The `for sibling in faction_btn.find_next_siblings()` loop: the
first sibling whose class list contains `NavDropdown-content`. -/
def findDropdown : List (List String × List FactionLink) →
    Option (List FactionLink)
  | [] => none
  | sib :: rest =>
    if sib.1.contains "NavDropdown-content" then some sib.2
    else findDropdown rest

/-- Python's `str.split(sep)` for a one-character separator. -/
def splitOnChar (c : Char) : List Char → List (List Char)
  | [] => [[]]
  | d :: rest =>
    let r := splitOnChar c rest
    if d = c then [] :: r
    else
      match r with
      | [] => [[d]]
      | grp :: gs => (d :: grp) :: gs

/-- An ASCII whitespace character, for Python's `str.strip()`. -/
def isPySpace (c : Char) : Bool :=
  decide (c = ' ' ∨ c = '\t' ∨ c = '\n' ∨ c = '\r')

/-- Python's `str.strip()` (ASCII whitespace). -/
def pyStrip (s : String) : String :=
  ⟨((s.toList.dropWhile isPySpace).reverse.dropWhile isPySpace).reverse⟩

/-- `FactionListExtractor._extract_faction_code`: strip trailing
slashes, split on `/`, return the segment after `factions` (or `""`). -/
def extract_faction_code (url : String) : String :=
  let parts := splitOnChar '/' ((url.toList.reverse.dropWhile (· = '/')).reverse)
  match parts.indexOf? "factions".toList with
  | none => ""
  | some i => ⟨(parts.get? (i + 1)).getD []⟩

/-- Lines 94-113 of faction_list.py, per link: skip links with empty
text or empty `href`, strip the name, absolutize the URL, derive the
code. -/
def processLink (link : FactionLink) : Option Faction :=
  if link.text ≠ "" ∧ link.href ≠ "" then
    let name := pyStrip link.text
    let url :=
      if pyStartsWith link.href "http" then link.href else BASE_URL ++ link.href
    some ⟨name, url, extract_faction_code url⟩
  else none

/-- `FactionListExtractor.extract_factions` with its status
publications: a failed fetch, nav-button lookup or dropdown lookup ends
with an error status; otherwise the links are processed and the batch is
published — with a completion/error status — only when at least one
faction was extracted.  `publishOk` is the `publish_factions` outcome. -/
def extract_factions (fetched : Option QuickStartPage)
    (publish_to_redis publishOk : Bool) : List Faction × List StatusKind :=
  let start := if publish_to_redis then [StatusKind.started] else []
  let err := if publish_to_redis then [StatusKind.error] else []
  match fetched with
  | none => ([], start ++ err)
  | some page =>
    match page.nav_siblings with
    | none => ([], start ++ err)
    | some sibs =>
      match findDropdown sibs with
      | none => ([], start ++ err)
      | some links =>
        let factions := links.filterMap processLink
        let finish :=
          if publish_to_redis && !factions.isEmpty then
            if publishOk then [StatusKind.completed] else [StatusKind.error]
          else []
        (factions, start ++ finish)

/-- The faction stage reached the link-processing loop: the fetch, the
nav-button lookup and the dropdown lookup all succeeded. -/
def dropdown_found : Option QuickStartPage → Bool
  | none => false
  | some page =>
    match page.nav_siblings with
    | none => false
    | some sibs => (findDropdown sibs).isSome

/-! ### Concrete page fixtures used by the extractor witnesses -/

/-- An `h3` heading carrying an army-rule name. -/
def h3Oath : Dom := .node "h3" [] "Oath of Moment" .nil .nil

/-- A `BreakInsideAvoid` div containing the heading. -/
def bdGood : Dom := .node "div" ["BreakInsideAvoid"] "" h3Oath .nil

/-- A `Columns2` container holding `bdGood` — the primary pattern. -/
def colGood : Dom := .node "div" ["Columns2"] "" bdGood .nil

/-- A `Columns2` container with no `BreakInsideAvoid` descendant, whose
following sibling is a `BreakInsideAvoid` div. -/
def colEmptyThenBd : Dom := .node "div" ["Columns2"] "" .nil bdGood

/-- A sibling chain with neither pattern. -/
def sibsNeither : Dom := .node "p" [] "lore text" .nil .nil

/-- A concrete faction page URL. -/
def smUrl : String := "https://wahapedia.ru/wh40k10ed/factions/space-marines"

/-- A concrete faction dictionary. -/
def fdSM : FactionData := ⟨some "Space Marines", some smUrl, some "space-marines"⟩

/-! ### Claims about the extractor stages -/

/-- Claim C8: per faction, the army-rule stage tries the primary pattern
(`Columns2` sibling, then a `BreakInsideAvoid` descendant inside it)
first; once a `Columns2` sibling exists the fallback is never consulted,
so a primary container without a `BreakInsideAvoid` yields no record
even when the sibling fallback would have matched; the fallback (direct
`BreakInsideAvoid` sibling) runs exactly when no `Columns2` sibling
exists; when both patterns fail the result is `none`; and the batch
collects per-faction results with `filterMap`, skipping failed factions
without aborting. -/
theorem C8_primary_fallback_precedence
    (fetch : String → Option FactionPage) (fd : FactionData) (url : String)
    (page : FactionPage) (sibs : Dom)
    (hurl : fd.url = some url) (hne : url ≠ "")
    (hfetch : fetch url = some page)
    (hanchor : page.armyRulesSiblings = some sibs) :
    (∀ target, findSibling isColumns2Div sibs = some target →
      extract_army_rule_for_faction fetch fd =
        armyRuleFromBreakDiv fd url (findFirst isBreakInsideAvoidDiv target.childOf)) ∧
    (∀ target, findSibling isColumns2Div sibs = some target →
      findFirst isBreakInsideAvoidDiv target.childOf = none →
      extract_army_rule_for_faction fetch fd = none) ∧
    (findSibling isColumns2Div sibs = none →
      extract_army_rule_for_faction fetch fd =
        armyRuleFromBreakDiv fd url (findSibling isBreakInsideAvoidDiv sibs)) ∧
    (findSibling isColumns2Div sibs = none →
      findSibling isBreakInsideAvoidDiv sibs = none →
      extract_army_rule_for_faction fetch fd = none) ∧
    (∀ (publishOk : Bool) (factions : List FactionData),
      (extract_all_army_rules fetch true publishOk factions).1 =
        factions.filterMap (extract_army_rule_for_faction fetch)) := by
  have hbase : extract_army_rule_for_faction fetch fd =
      armyRuleFromBreakDiv fd url
        (match findSibling isColumns2Div sibs with
         | some target => findFirst isBreakInsideAvoidDiv target.childOf
         | none => findSibling isBreakInsideAvoidDiv sibs) := by
    unfold extract_army_rule_for_faction
    rw [hurl]
    simp only [if_neg hne, hfetch, hanchor]
  refine ⟨?_, ?_, ?_, ?_, ?_⟩
  · intro target htarget
    rw [hbase, htarget]
  · intro target htarget hnone
    rw [hbase, htarget]
    simp only [hnone]
    rfl
  · intro hnoprim
    rw [hbase, hnoprim]
  · intro hnoprim hnofall
    rw [hbase, hnoprim]
    simp only [hnofall]
    rfl
  · intro publishOk factions
    simp [extract_all_army_rules]

/-- Witness for C8 at concrete pages: (a) primary pattern succeeds; (b)
a `Columns2` container without `BreakInsideAvoid` yields no record even
though the sibling fallback would have matched; (c) the fallback
succeeds when no `Columns2` exists; (d) neither pattern yields a
record. -/
theorem C8_primary_fallback_precedence_witness :
    extract_army_rule_for_faction (fun _ => some ⟨some colGood⟩) fdSM =
      some ⟨some "Space Marines", some "space-marines", smUrl, "Oath of Moment"⟩ ∧
    (extract_army_rule_for_faction (fun _ => some ⟨some colEmptyThenBd⟩) fdSM = none ∧
      findSibling isBreakInsideAvoidDiv colEmptyThenBd = some bdGood) ∧
    extract_army_rule_for_faction (fun _ => some ⟨some bdGood⟩) fdSM =
      some ⟨some "Space Marines", some "space-marines", smUrl, "Oath of Moment"⟩ ∧
    extract_army_rule_for_faction (fun _ => some ⟨some sibsNeither⟩) fdSM = none := by
  refine ⟨?_, ⟨?_, by decide⟩, ?_, ?_⟩
  · have h := C8_primary_fallback_precedence (fun _ => some ⟨some colGood⟩)
      fdSM smUrl ⟨some colGood⟩ colGood rfl (by decide) rfl rfl
    rw [h.1 colGood (by decide)]
    decide
  · have h := C8_primary_fallback_precedence (fun _ => some ⟨some colEmptyThenBd⟩)
      fdSM smUrl ⟨some colEmptyThenBd⟩ colEmptyThenBd rfl (by decide) rfl rfl
    exact h.2.1 colEmptyThenBd (by decide) (by decide)
  · have h := C8_primary_fallback_precedence (fun _ => some ⟨some bdGood⟩)
      fdSM smUrl ⟨some bdGood⟩ bdGood rfl (by decide) rfl rfl
    rw [h.2.2.1 (by decide)]
    decide
  · have h := C8_primary_fallback_precedence (fun _ => some ⟨some sibsNeither⟩)
      fdSM smUrl ⟨some sibsNeither⟩ sibsNeither rfl (by decide) rfl rfl
    exact h.2.2.2.1 (by decide) (by decide)

/-- Claim C1 counterexample: with publishing enabled, a faction-list
batch whose fetch, nav-button and dropdown lookups all succeed but that
extracts zero links publishes only the start status — no completion and
no error status — and an army-rules batch over one faction whose page
fetch fails likewise publishes only the start status. -/
theorem C1_counterexample :
    (extract_factions (some ⟨some [(["NavDropdown-content"], [])]⟩) true true).2 =
      [StatusKind.started] ∧
    StatusKind.completed ∉
      (extract_factions (some ⟨some [(["NavDropdown-content"], [])]⟩) true true).2 ∧
    StatusKind.error ∉
      (extract_factions (some ⟨some [(["NavDropdown-content"], [])]⟩) true true).2 ∧
    (extract_all_army_rules (fun _ => none) true true [fdSM]).2 =
      [StatusKind.started] := by decide

/-- Claim C1 (amended): with publishing enabled, each stage publishes
its start status unconditionally, but the terminal status only when at
least one record was extracted (the faction stage also publishes an
error status when the fetch, the nav-button lookup or the dropdown
lookup fails); a batch that succeeds with zero extracted records ends
with the start status alone. -/
theorem C1_terminal_status_requires_records
    (fetch : String → Option FactionPage) (publishOk : Bool)
    (factions : List FactionData) (fetched : Option QuickStartPage) :
    ((extract_all_army_rules fetch true publishOk factions).1 = [] →
      (extract_all_army_rules fetch true publishOk factions).2 =
        [StatusKind.started]) ∧
    ((extract_all_army_rules fetch true publishOk factions).1 ≠ [] →
      (extract_all_army_rules fetch true publishOk factions).2 =
        [StatusKind.started,
         if publishOk then StatusKind.completed else StatusKind.error]) ∧
    (dropdown_found fetched = false →
      (extract_factions fetched true publishOk).2 =
        [StatusKind.started, StatusKind.error]) ∧
    (dropdown_found fetched = true →
      (extract_factions fetched true publishOk).1 = [] →
      (extract_factions fetched true publishOk).2 = [StatusKind.started]) ∧
    (dropdown_found fetched = true →
      (extract_factions fetched true publishOk).1 ≠ [] →
      (extract_factions fetched true publishOk).2 =
        [StatusKind.started,
         if publishOk then StatusKind.completed else StatusKind.error]) := by
  refine ⟨?_, ?_, ?_, ?_, ?_⟩
  · intro h
    simp only [extract_all_army_rules] at h ⊢
    rw [h]
    simp
  · intro h
    simp only [extract_all_army_rules] at h ⊢
    rw [List.isEmpty_eq_false_iff_exists_mem.mpr]
    · cases publishOk <;> simp
    · cases he : factions.filterMap (extract_army_rule_for_faction fetch) with
      | nil => exact absurd he h
      | cons a t => exact ⟨a, he ▸ List.mem_cons_self a t⟩
  · intro h
    cases fetched with
    | none => simp [extract_factions]
    | some page =>
      cases hnav : page.nav_siblings with
      | none => simp [extract_factions, hnav]
      | some sibs =>
        cases hdd : findDropdown sibs with
        | none => simp [extract_factions, hnav, hdd]
        | some links => simp [dropdown_found, hnav, hdd] at h
  · intro hfound h
    cases fetched with
    | none => simp [dropdown_found] at hfound
    | some page =>
      cases hnav : page.nav_siblings with
      | none => simp [dropdown_found, hnav] at hfound
      | some sibs =>
        cases hdd : findDropdown sibs with
        | none => simp [dropdown_found, hnav, hdd] at hfound
        | some links =>
          simp only [extract_factions, hnav, hdd] at h ⊢
          rw [h]
          simp
  · intro hfound h
    cases fetched with
    | none => simp [dropdown_found] at hfound
    | some page =>
      cases hnav : page.nav_siblings with
      | none => simp [dropdown_found, hnav] at hfound
      | some sibs =>
        cases hdd : findDropdown sibs with
        | none => simp [dropdown_found, hnav, hdd] at hfound
        | some links =>
          simp only [extract_factions, hnav, hdd] at h ⊢
          rw [List.isEmpty_eq_false_iff_exists_mem.mpr]
          · cases publishOk <;> simp
          · cases he : links.filterMap processLink with
            | nil => exact absurd he h
            | cons a t => exact ⟨a, he ▸ List.mem_cons_self a t⟩

/-- Witness for C1 (amended) at concrete batches: a zero-record army
batch, a one-record army batch, a failed faction fetch, a successful
faction batch with zero links, and a successful faction batch with one
link. -/
theorem C1_terminal_status_requires_records_witness :
    (extract_all_army_rules (fun _ => none) true true [fdSM]).2 =
      [StatusKind.started] ∧
    (extract_all_army_rules (fun _ => some ⟨some colGood⟩) true true [fdSM]).2 =
      [StatusKind.started, StatusKind.completed] ∧
    (extract_factions none true true).2 =
      [StatusKind.started, StatusKind.error] ∧
    (extract_factions (some ⟨some [(["NavDropdown-content"], [])]⟩) true true).2 =
      [StatusKind.started] ∧
    (extract_factions
      (some ⟨some [(["NavDropdown-content"],
        [⟨"Orks", "/wh40k10ed/factions/orks"⟩])]⟩) true true).2 =
      [StatusKind.started, StatusKind.completed] := by
  refine ⟨?_, ?_, ?_, ?_, ?_⟩
  · exact (C1_terminal_status_requires_records (fun _ => none) true [fdSM]
      none).1 (by decide)
  · exact (C1_terminal_status_requires_records (fun _ => some ⟨some colGood⟩)
      true [fdSM] none).2.1 (by decide)
  · exact (C1_terminal_status_requires_records (fun _ => none) true []
      none).2.2.1 (by decide)
  · exact (C1_terminal_status_requires_records (fun _ => none) true []
      (some ⟨some [(["NavDropdown-content"], [])]⟩)).2.2.2.1 (by decide) (by decide)
  · exact (C1_terminal_status_requires_records (fun _ => none) true []
      (some ⟨some [(["NavDropdown-content"],
        [⟨"Orks", "/wh40k10ed/factions/orks"⟩])]⟩)).2.2.2.2 (by decide) (by decide)

end Spec2Proof
